import Mathlib

/-
Verification of the ia-mirror fetch orchestrator against its specification.

The definitions below are a shallow embedding of the Python sources
src/docker/fetcher.py and "src/python tools/parallel_ia_resume.py".
External effects (the filesystem, the ia CLI collaborator, the random
number generator, wall-clock time) are passed in explicitly as oracle
parameters, so every definition is a pure, executable Lean function
mirroring the corresponding Python control flow.
-/

namespace IAMirror

/-! ## Status store (fetcher.py: load_status / main initialization / result loop) -/

/-- A work item: one (identifier, relative filename) pair, as built into
`job_list` by fetcher.py `main`. -/
structure Job where
  item : String
  file : String
  deriving DecidableEq, Repr

/-- Key format used by the status file: "<item>/<filename>"
(fetcher.py: the f-string at the classification and result-recording sites). -/
def jobKey (j : Job) : String := j.item ++ "/" ++ j.file

/-- The persisted status record: JSON {pending: [string], done: [string]}
(fetcher.py `load_status` / `save_status`). -/
structure Status where
  pending : List String
  done : List String
  deriving DecidableEq, Repr

/-- One iteration of the initialization loop in fetcher.py `main`
(lines 796-808): a job whose local file verifies is appended to `done`
(if absent), otherwise its key is appended to `pending` (if absent).
`validLocal j` stands for the disjunction of the two on-disk
verify_local_file checks at the primary and nested candidate paths. -/
def classifyStep (validLocal : Job → Bool) (st : Status) (j : Job) : Status :=
  if validLocal j then
    if jobKey j ∈ st.done then st else { st with done := st.done ++ [jobKey j] }
  else
    if jobKey j ∈ st.pending then st else { st with pending := st.pending ++ [jobKey j] }

/-- The full classification loop over `job_list` (fetcher.py lines 796-808). -/
def classifyJobs (validLocal : Job → Bool) : List Job → Status → Status
  | [], st => st
  | j :: rest, st => classifyJobs validLocal rest (classifyStep validLocal st j)

/-- fetcher.py lines 790-811: the classification runs only under
`if not status["pending"]`; the loaded `done` list is kept
(`status["done"] = status.get("done", [])`). -/
def initStatusIfEmpty (validLocal : Job → Bool) (jobs : List Job) (st : Status) : Status :=
  if st.pending = [] then classifyJobs validLocal jobs { pending := [], done := st.done }
  else st

/-- fetcher.py lines 912-930: the scheduler submits download_single_file
exactly for the jobs whose key is contained in `status["pending"]`. -/
def dispatched (jobs : List Job) (st : Status) : List Job :=
  jobs.filter fun j => decide (jobKey j ∈ st.pending)

/-- fetcher.py lines 938-946: recording one completed job's outcome.
On success the key is appended to `done` and removed from `pending`
(guarded by a membership test, which List.erase reproduces); on failure
the status is untouched and the key is appended to the run's `failures`
list. Returns (new status, new failures list). -/
def recordOutcome (st : Status) (failures : List String) (key : String)
    (success : Bool) : Status × List String :=
  if success then
    ({ pending := st.pending.erase key, done := st.done ++ [key] }, failures)
  else
    (st, failures ++ [key])

/-! ### Helper lemmas about the classification loop -/

theorem classifyStep_done_sub (v : Job → Bool) (st : Status) (j : Job) :
    st.done ⊆ (classifyStep v st j).done := by
  intro a ha
  unfold classifyStep
  split
  · split
    · exact ha
    · exact List.mem_append_left _ ha
  · split
    · exact ha
    · exact ha

theorem classifyStep_pending_sub (v : Job → Bool) (st : Status) (j : Job) :
    st.pending ⊆ (classifyStep v st j).pending := by
  intro a ha
  unfold classifyStep
  split
  · split
    · exact ha
    · exact ha
  · split
    · exact ha
    · exact List.mem_append_left _ ha

theorem classifyJobs_done_sub (v : Job → Bool) (jobs : List Job) (st : Status) :
    st.done ⊆ (classifyJobs v jobs st).done := by
  induction jobs generalizing st with
  | nil => exact fun a h => h
  | cons j rest ih =>
      intro a ha
      exact ih (classifyStep v st j) (classifyStep_done_sub v st j ha)

theorem classifyJobs_pending_sub (v : Job → Bool) (jobs : List Job) (st : Status) :
    st.pending ⊆ (classifyJobs v jobs st).pending := by
  induction jobs generalizing st with
  | nil => exact fun a h => h
  | cons j rest ih =>
      intro a ha
      exact ih (classifyStep v st j) (classifyStep_pending_sub v st j ha)

theorem classifyStep_done_mem (v : Job → Bool) (st : Status) (j : Job)
    (hv : v j = true) : jobKey j ∈ (classifyStep v st j).done := by
  unfold classifyStep
  rw [hv]
  simp only [if_true]
  split
  · assumption
  · exact List.mem_append_right _ (List.mem_singleton.mpr rfl)

theorem classifyStep_pending_mem (v : Job → Bool) (st : Status) (j : Job)
    (hv : v j = false) : jobKey j ∈ (classifyStep v st j).pending := by
  unfold classifyStep
  rw [hv]
  simp only [Bool.false_eq_true, if_false]
  split
  · assumption
  · exact List.mem_append_right _ (List.mem_singleton.mpr rfl)

theorem classifyJobs_done_mem (v : Job → Bool) (jobs : List Job) (st : Status)
    (j : Job) (hj : j ∈ jobs) (hv : v j = true) :
    jobKey j ∈ (classifyJobs v jobs st).done := by
  induction jobs generalizing st with
  | nil => cases hj
  | cons a rest ih =>
      rcases List.mem_cons.mp hj with rfl | hj'
      · exact classifyJobs_done_sub v rest _ (classifyStep_done_mem v st j hv)
      · exact ih _ hj'

theorem classifyJobs_pending_mem (v : Job → Bool) (jobs : List Job) (st : Status)
    (j : Job) (hj : j ∈ jobs) (hv : v j = false) :
    jobKey j ∈ (classifyJobs v jobs st).pending := by
  induction jobs generalizing st with
  | nil => cases hj
  | cons a rest ih =>
      rcases List.mem_cons.mp hj with rfl | hj'
      · exact classifyJobs_pending_sub v rest _ (classifyStep_pending_mem v st j hv)
      · exact ih _ hj'

theorem classifyStep_pending_src (v : Job → Bool) (st : Status) (j : Job)
    (k : String) (hk : k ∈ (classifyStep v st j).pending) :
    k ∈ st.pending ∨ (jobKey j = k ∧ v j = false) := by
  unfold classifyStep at hk
  by_cases hv : v j = true
  · rw [hv] at hk
    simp only [if_true] at hk
    split at hk
    · exact Or.inl hk
    · exact Or.inl hk
  · rw [Bool.not_eq_true] at hv
    rw [hv] at hk
    simp only [Bool.false_eq_true, if_false] at hk
    split at hk
    · exact Or.inl hk
    · rcases List.mem_append.mp hk with h | h
      · exact Or.inl h
      · exact Or.inr ⟨(List.mem_singleton.mp h).symm, hv⟩

theorem classifyJobs_pending_src (v : Job → Bool) (jobs : List Job) (st : Status)
    (k : String) :
    k ∈ (classifyJobs v jobs st).pending →
      k ∈ st.pending ∨ ∃ j, j ∈ jobs ∧ jobKey j = k ∧ v j = false := by
  induction jobs generalizing st with
  | nil => exact fun h => Or.inl h
  | cons a rest ih =>
      intro h
      rcases ih (classifyStep v st a) h with h' | ⟨j, hj, hkey, hv⟩
      · rcases classifyStep_pending_src v st a k h' with h'' | ⟨hkey, hv⟩
        · exact Or.inl h''
        · exact Or.inr ⟨a, List.mem_cons_self a rest, hkey, hv⟩
      · exact Or.inr ⟨j, List.mem_cons_of_mem a hj, hkey, hv⟩

theorem dispatched_mem (jobs : List Job) (st : Status) (j : Job) :
    j ∈ dispatched jobs st ↔ j ∈ jobs ∧ jobKey j ∈ st.pending := by
  unfold dispatched
  rw [List.mem_filter]
  simp only [decide_eq_true_eq]

/-! ## Filesystem model

Directory trees as observed by the Python code through Path.exists,
Path.is_dir, Path.stat().st_size and os.walk. -/

mutual

/-- A node of the local filesystem: a regular file with its byte size, or a
directory with named entries. -/
inductive FSNode where
  | file (size : Nat)
  | dir (entries : FSEntries)

/-- The ordered entries of a directory. -/
inductive FSEntries where
  | nil
  | cons (name : String) (node : FSNode) (rest : FSEntries)

end

mutual

/-- Whether a node contains, at any depth, a regular file of positive size
(the quantity scanned by parallel_ia_resume.py `dir_is_empty` via os.walk). -/
def nodeHasPosFile : FSNode → Bool
  | .file sz => decide (0 < sz)
  | .dir es => entriesHasPosFile es

/-- Whether some entry of a directory contains a positive-size regular file. -/
def entriesHasPosFile : FSEntries → Bool
  | .nil => false
  | .cons _ n rest => nodeHasPosFile n || entriesHasPosFile rest

end

mutual

/-- Propositional form of `nodeHasPosFile`: the node recursively contains at
least one non-empty regular file. -/
inductive ContainsPosFile : FSNode → Prop
  | file : ∀ sz, 0 < sz → ContainsPosFile (.file sz)
  | dir : ∀ es, EntriesContainPosFile es → ContainsPosFile (.dir es)

/-- Propositional form of `entriesHasPosFile`. -/
inductive EntriesContainPosFile : FSEntries → Prop
  | head : ∀ name n rest, ContainsPosFile n → EntriesContainPosFile (.cons name n rest)
  | tail : ∀ name n rest, EntriesContainPosFile rest → EntriesContainPosFile (.cons name n rest)

end

mutual

theorem nodeHasPos_iff : ∀ n : FSNode, nodeHasPosFile n = true ↔ ContainsPosFile n
  | .file sz => by
      simp only [nodeHasPosFile, decide_eq_true_eq]
      constructor
      · exact fun h => ContainsPosFile.file sz h
      · intro h
        cases h
        assumption
  | .dir es => by
      simp only [nodeHasPosFile]
      rw [entriesHasPos_iff es]
      constructor
      · exact fun h => ContainsPosFile.dir es h
      · intro h
        cases h
        assumption

theorem entriesHasPos_iff : ∀ es : FSEntries,
    entriesHasPosFile es = true ↔ EntriesContainPosFile es
  | .nil => by
      simp only [entriesHasPosFile, Bool.false_eq_true, false_iff]
      intro h
      cases h
  | .cons name n rest => by
      simp only [entriesHasPosFile, Bool.or_eq_true]
      rw [nodeHasPos_iff n, entriesHasPos_iff rest]
      constructor
      · rintro (h | h)
        · exact EntriesContainPosFile.head name n rest h
        · exact EntriesContainPosFile.tail name n rest h
      · intro h
        cases h with
        | head _ _ _ h => exact Or.inl h
        | tail _ _ _ h => exact Or.inr h

end

/-- The external world as seen by one worker invocation: the shared shutdown
flag, the filesystem (three query styles used by the code), the ia CLI
`verify` collaborator, and the resolve-and-commonpath containment test of
parallel_ia_resume.py `_is_within`. -/
structure FetchEnv where
  shutdown : Bool
  existsAt : String → Bool
  sizeAt : String → Nat
  verifyOk : String → String → Bool
  node : String → Option FSNode
  within : String → String → Bool

/-- parallel_ia_resume.py `dir_is_empty`: True when the path is absent, or is
not a directory (os.walk of a non-directory yields nothing), or its tree
contains no regular file of positive size. -/
def dirIsEmpty (env : FetchEnv) (p : String) : Bool :=
  match env.node p with
  | none => true
  | some (.file _) => true
  | some (.dir es) => !(entriesHasPosFile es)

/-- Path.exists as asked by the resumefolders skip checks. -/
def existsNode (o : Option FSNode) : Bool := o.isSome

/-- Path.is_dir as asked by fetcher.py's resumefolders skip check. -/
def isDirNode : Option FSNode → Bool
  | some (.dir _) => true
  | _ => false

/-! ## Validation helpers (parallel_ia_resume.py lines 91-114) -/

/-- One character of the identifier grammar `[A-Za-z0-9._-]`. -/
def isIdChar (c : Char) : Bool :=
  c.isAlpha || c.isDigit || c == '.' || c == '_' || c == '-'

/-- parallel_ia_resume.py `_ID_RE.fullmatch`: 1 to 200 characters, all drawn
from `[A-Za-z0-9._-]`. `_validate_identifier` raises SystemExit when this
fails (or the identifier is empty, subsumed by the length bound). -/
def validIdentifier (s : String) : Bool :=
  decide (1 ≤ s.length) && decide (s.length ≤ 200) && s.toList.all isIdChar

/-- Python str.split for a one-character separator, over the character
list (always returns at least one group, like Python's split). -/
def splitOnChar (sep : Char) : List Char → List (List Char)
  | [] => [[]]
  | c :: rest =>
      match splitOnChar sep rest with
      | [] => [[]]
      | g :: gs => if c = sep then [] :: g :: gs else (c :: g) :: gs

/-- posixpath.normpath component processing for a relative path: drop empty
and "." components; ".." pops the previous component unless there is none or
it is itself "..". The accumulator holds the output components reversed. -/
def normCompsC : List (List Char) → List (List Char) → List (List Char)
  | [], acc => acc.reverse
  | comp :: rest, acc =>
      if comp = [] ∨ comp = ['.'] then normCompsC rest acc
      else if comp = ['.', '.'] then
        match acc with
        | [] => normCompsC rest [['.', '.']]
        | a :: tl =>
            if a = ['.', '.'] then normCompsC rest (['.', '.'] :: a :: tl)
            else normCompsC rest tl
      else normCompsC rest (comp :: acc)

/-- Join path components back with '/' separators. -/
def joinSlash : List (List Char) → List Char
  | [] => []
  | [c] => c
  | c :: rest => c ++ '/' :: joinSlash rest

/-- posixpath.normpath restricted to relative paths (the only inputs
`_is_safe_filename` feeds it, since absolute paths were already rejected):
split on '/', normalize the components, re-join, and fall back to "." for
the empty result. -/
def normpathRelChars (cs : List Char) : List Char :=
  match joinSlash (normCompsC (splitOnChar '/' cs) []) with
  | [] => ['.']
  | s => s

/-- os.path.isabs on posix: the path starts with '/'. -/
def isAbsChars : List Char → Bool
  | '/' :: _ => true
  | _ => false

/-- str.startswith ".." on the normalized form. -/
def startsWithDotDot : List Char → Bool
  | '.' :: '.' :: _ => true
  | _ => false

/-- parallel_ia_resume.py `_is_safe_filename`: rejects the empty string,
NUL/CR/LF characters, absolute paths, and paths whose normalized form is "."
or starts with "..". -/
def isSafeFilename (p : String) : Bool :=
  let cs := p.toList
  if cs = [] ∨ cs.any (fun c => c == '\x00' || c == '\r' || c == '\n') then false
  else if isAbsChars cs then false
  else
    let norm := normpathRelChars cs
    if startsWithDotDot norm ∨ norm = ['.'] ∨ norm = [] then false
    else true

/-- Python z[:-4]: drop the last four characters (the ".zip" suffix of a zip
filename in both resumefolders code paths). -/
def stripZipExt (z : String) : String :=
  String.mk (z.toList.take (z.toList.length - 4))

/-! ## Download workers (pre-network phase) -/

/-- fetcher.py `verify_local_file` (lines 150-154): requires existence and a
positive size; with checksum off that suffices, otherwise the ia `verify`
collaborator must exit 0. -/
def verify_local_file (env : FetchEnv) (identifier filename localPath : String)
    (checksum : Bool) : Bool :=
  if !(env.existsAt localPath) || env.sizeAt localPath == 0 then false
  else if !checksum then true
  else env.verifyOk identifier filename

/-- parallel_ia_resume.py `verify_local_file` (lines 187-202): additionally
re-checks `_is_safe_filename` first, and always runs the checksum
verification collaborator. -/
def rverify (env : FetchEnv) (identifier filename localPath : String) : Bool :=
  if !(isSafeFilename filename) then false
  else if !(env.existsAt localPath) || env.sizeAt localPath == 0 then false
  else env.verifyOk identifier filename

/-- The observable control-flow outcome of fetcher.py `download_single_file`
up to (and including) the decision to start the external `ia download`
process. `dispatch` means the function reaches the subprocess.Popen call on
the external fetch primitive. -/
inductive WorkerStep where
  | shutdownFail
  | skipLocal
  | dispatch
  deriving DecidableEq, Repr

/-- fetcher.py `download_single_file` lines 305-342 (pre-network phase):
return failure on shutdown; return success when the primary candidate
`destdir/filename` verifies, or the nested candidate
`destdir/identifier/filename` verifies; otherwise proceed to the external
download invocation. -/
def fetcherWorkerPre (env : FetchEnv) (identifier filename destdir : String)
    (checksum : Bool) : WorkerStep :=
  if env.shutdown then .shutdownFail
  else if env.existsAt (destdir ++ "/" ++ filename) &&
          verify_local_file env identifier filename (destdir ++ "/" ++ filename) checksum then
    .skipLocal
  else if env.existsAt (destdir ++ "/" ++ identifier ++ "/" ++ filename) &&
          verify_local_file env identifier filename
            (destdir ++ "/" ++ identifier ++ "/" ++ filename) checksum then
    .skipLocal
  else .dispatch

/-- The observable control-flow outcome of parallel_ia_resume.py
`download_single_file` up to the decision to start the external process.
`validationExit` models the SystemExit raised by `_validate_identifier`
(which the worker's `except Exception` does not catch); `validationFail`
models the caught ValueError for an unsafe filename, returned as a failed
job. Both happen before any external call. -/
inductive RStep where
  | validationExit
  | validationFail
  | shutdownFail
  | skipFolder
  | traversalFail
  | skipLocal
  | dispatch
  deriving DecidableEq, Repr

/-- parallel_ia_resume.py `download_single_file` lines 251-264: when an
unpacked root is given and the job is a zip, skip (as success) if the
extraction folder exists and is not recursively empty. -/
def folderSkipCheck (env : FetchEnv) (filename : String)
    (unpackedRoot : Option String) : Bool :=
  match unpackedRoot with
  | some root =>
      filename.endsWith ".zip" &&
      (existsNode (env.node (root ++ "/" ++ stripZipExt filename)) &&
       !(dirIsEmpty env (root ++ "/" ++ stripZipExt filename)))
  | none => false

/-- parallel_ia_resume.py `download_single_file` lines 226-294 (pre-network
phase): validate identifier (SystemExit on failure) then filename (failed
job on failure); bail out on shutdown; skip as success when the unpacked
folder exists non-empty; reject on path traversal; skip as success when the
local copy verifies; otherwise reach the external download invocation. -/
def resumeWorkerPre (env : FetchEnv) (identifier filename destdir : String)
    (unpackedRoot : Option String) : RStep :=
  if !(validIdentifier identifier) then .validationExit
  else if !(isSafeFilename filename) then .validationFail
  else if env.shutdown then .shutdownFail
  else if folderSkipCheck env filename unpackedRoot then .skipFolder
  else if !(env.within destdir (destdir ++ "/" ++ filename)) then .traversalFail
  else if env.existsAt (destdir ++ "/" ++ filename) &&
          rverify env identifier filename (destdir ++ "/" ++ filename) then
    .skipLocal
  else .dispatch

theorem verify_local_file_exists (env : FetchEnv) (identifier filename p : String)
    (cs : Bool) (h : verify_local_file env identifier filename p cs = true) :
    env.existsAt p = true := by
  by_cases hx : env.existsAt p = true
  · exact hx
  · rw [Bool.not_eq_true] at hx
    unfold verify_local_file at h
    rw [hx] at h
    simp at h

theorem rverify_exists (env : FetchEnv) (identifier filename p : String)
    (h : rverify env identifier filename p = true) :
    env.existsAt p = true := by
  by_cases hx : env.existsAt p = true
  · exact hx
  · rw [Bool.not_eq_true] at hx
    unfold rverify at h
    rw [hx] at h
    by_cases hs : isSafeFilename filename <;> simp [hs] at h

/-! ## Resumefolders discovery (fetcher.py lines 727-742 and
parallel_ia_resume.py lines 157-183) -/

/-- The final path component, as pathlib's PurePath.name computes it for the
slash-separated names returned by the ia CLI. -/
def lastComponent (fn : String) : String :=
  (fn.splitOn "/").getLastD fn

/-- Index of the last '.' in a character list, if any. -/
def lastDotIdx (cs : List Char) : Option Nat :=
  ((List.range cs.length).filter (fun i => cs.getD i ' ' == '.')).getLast?

/-- pathlib's PurePath.stem: the final component with its suffix removed; the
suffix is name[i:] for the last '.' at index i only when 0 < i < len-1. -/
def pyStem (fn : String) : String :=
  let name := lastComponent fn
  let cs := name.toList
  match lastDotIdx cs with
  | some i => if 0 < i ∧ i < cs.length - 1 then String.mk (cs.take i) else name
  | none => name

/-- fetcher.py lines 736-741: the permissive skip test of resumefolders mode.
A zip is skipped when `dest / Path(fn).stem` exists and is a directory. -/
def resumefoldersSkip (env : FetchEnv) (dest fn : String) : Bool :=
  existsNode (env.node (dest ++ "/" ++ pyStem fn)) &&
  isDirNode (env.node (dest ++ "/" ++ pyStem fn))

/-- The `will_skip` list built by fetcher.py's resumefolders loop (for one
item; the test does not depend on the item). -/
def resumefoldersWillSkip (env : FetchEnv) (dest : String) (files : List String) :
    List String :=
  files.filter fun fn => resumefoldersSkip env dest fn

/-- The `job_list` built by fetcher.py's resumefolders loop. -/
def resumefoldersJobList (env : FetchEnv) (dest : String) (files : List String) :
    List String :=
  files.filter fun fn => !(resumefoldersSkip env dest fn)

/-- parallel_ia_resume.py `discover_missing_folder_zips` lines 169-183: a zip
is scheduled exactly when `unpacked_root / z[:-4]` is missing or recursively
empty. -/
def discover_missing_folder_zips (env : FetchEnv) (unpackedRoot : String)
    (allZips : List String) : List String :=
  allZips.filter fun z => dirIsEmpty env (unpackedRoot ++ "/" ++ stripZipExt z)

theorem resumefoldersSkip_iff (env : FetchEnv) (dest fn : String) :
    resumefoldersSkip env dest fn = true ↔
      ∃ es, env.node (dest ++ "/" ++ pyStem fn) = some (FSNode.dir es) := by
  unfold resumefoldersSkip
  rcases h : env.node (dest ++ "/" ++ pyStem fn) with _ | n
  · simp [existsNode, isDirNode]
  · cases n with
    | file sz => simp [existsNode, isDirNode]
    | dir es =>
        simp only [existsNode, isDirNode, Option.isSome_some, Bool.true_and,
          Option.some.injEq, true_iff]
        exact ⟨es, rfl⟩

theorem dirIsEmpty_eq_false_iff (env : FetchEnv) (p : String) :
    dirIsEmpty env p = false ↔
      ∃ es, env.node p = some (FSNode.dir es) ∧ EntriesContainPosFile es := by
  unfold dirIsEmpty
  rcases h : env.node p with _ | n
  · simp
  · cases n with
    | file sz => simp
    | dir es =>
        simp only [Bool.not_eq_false', Option.some.injEq]
        rw [entriesHasPos_iff es]
        constructor
        · exact fun hc => ⟨es, rfl, hc⟩
        · rintro ⟨es', hes, hc⟩
          cases FSNode.dir.inj hes
          exact hc

/-! ## Backoff controller (fetcher.py lines 171-212) -/

/-- The module-level backoff configuration: `_backoff_enabled`,
`_backoff_base`, `_backoff_max`, `_backoff_multiplier`, `_backoff_jitter`.
Time and delays are modelled as exact rationals. -/
structure BackoffCfg where
  enabled : Bool
  base : ℚ
  maxDelay : ℚ
  multiplier : ℚ
  jitter : ℚ

/-- The mutable backoff state: `_backoff_level` and `_backoff_until_ts`. -/
structure BackoffState where
  level : ℤ
  untilTs : ℚ

/-- The capped exponential term `min(base * multiplier ** level, max)` of
`_backoff_register_event` (line 199), before jitter. -/
def preDelay (cfg : BackoffCfg) (n : ℕ) : ℚ :=
  min (cfg.base * cfg.multiplier ^ n) cfg.maxDelay

/-- Lines 200-201 of `_backoff_register_event`: the jitter draw
`random()*2-1` is passed in as `j` (so j ranges over [-1, 1]); the delay is
`max(0.0, delay + j * (jitter * delay))` with `delay` the capped term. -/
def jitteredDelay (cfg : BackoffCfg) (n : ℕ) (j : ℚ) : ℚ :=
  max 0 (preDelay cfg n + j * (cfg.jitter * preDelay cfg n))

/-- fetcher.py `_backoff_register_event` (lines 192-204): a no-op when
backoff is disabled; otherwise level becomes `max(0, level) + 1`, and the
resume timestamp becomes the max of its current value and now plus the
jittered delay computed at the new level. -/
def trigger (cfg : BackoffCfg) (st : BackoffState) (now j : ℚ) : BackoffState :=
  if cfg.enabled then
    { level := max 0 st.level + 1,
      untilTs := max st.untilTs (now + jitteredDelay cfg (max 0 st.level + 1).toNat j) }
  else st

/-- fetcher.py `_backoff_relax` (lines 206-212): decrement the level only
when it is positive; the scheduled resume timestamp is untouched. -/
def relax (cfg : BackoffCfg) (st : BackoffState) : BackoffState :=
  if cfg.enabled then
    if 0 < st.level then { st with level := st.level - 1 } else st
  else st

/-! ## Aggregate progress counter (fetcher.py lines 224-239) -/

/-- The shared progress state: `_bytes_downloaded_total` and the
`_file_last_sizes` map of canonical local path to last observed size. -/
structure ProgressState where
  bytesTotal : Nat
  lastSizes : String → Option Nat

/-- fetcher.py `_update_aggregate_bytes`: a first observation of a path only
records its size; a later observation adds the positive delta (and records
the new size) or, when the size did not grow, changes nothing. -/
def updateAggregateBytes (st : ProgressState) (filepath : String)
    (currentSize : Nat) : ProgressState :=
  match st.lastSizes filepath with
  | none =>
      { st with lastSizes := fun p => if p = filepath then some currentSize else st.lastSizes p }
  | some prev =>
      if prev < currentSize then
        { bytesTotal := st.bytesTotal + (currentSize - prev),
          lastSizes := fun p => if p = filepath then some currentSize else st.lastSizes p }
      else st

/-! ## Exclusive run lock (fetcher.py lines 612-648) -/

/-- The lock record written to `.ia_status/lock.json`:
{pid, host, started, identifier, uuid}. -/
structure LockInfo where
  pid : Nat
  host : String
  started : ℚ
  identifier : String
  uuid : String
  deriving DecidableEq, Repr

/-- fetcher.py lines 612-634: with locking disabled, proceed with no lock;
with locking enabled, an existing lock file makes `main` return 3 at once
(before any job discovery or download); otherwise the fresh lock record
`info` (whose uuid field is the freshly drawn uuid4) is written and the run
proceeds holding it. -/
def acquireLock (noLock lockFileExists : Bool) (info : LockInfo) :
    Except Nat (Option LockInfo) :=
  if noLock then .ok none
  else if lockFileExists then .error 3
  else .ok (some info)

/-- fetcher.py `_unlock` (lines 636-647): the exit hook deletes the lock file
only when the file still exists, parses as a record, and its uuid equals the
one this process wrote. `current` is none when the file is missing or
unparseable. -/
def unlockShouldDelete (current : Option LockInfo) (myUuid : String) : Bool :=
  match current with
  | some cur => cur.uuid == myUuid
  | none => false

/-! ## Claims -/

/-- Claim C1, counterexample. The claim states that a key recorded in `done`
is never dispatched again by a subsequent run. Concretely: the persisted
record has pending = [] and done = ["it/f"]; on the next run the
initialization re-runs (pending is empty) and, because the local file no
longer verifies (`validLocal` is false), re-adds the done key "it/f" to
pending, and the scheduler then dispatches the job ("it", "f") to the
external fetch primitive. -/
theorem C1_counterexample :
    "it/f" ∈ (Status.mk [] ["it/f"]).done ∧
    (Job.mk "it" "f") ∈
      dispatched [Job.mk "it" "f"]
        (initStatusIfEmpty (fun _ => false) [Job.mk "it" "f"] (Status.mk [] ["it/f"])) := by
  constructor
  · decide
  · decide

/-- Claim C1 (amended): the scheduler dispatches only keys listed in the
post-initialization `pending` list; and provided the loaded record's `done`
and `pending` lists are disjoint and every job whose key is in `done` still
verifies locally, no `done` key is dispatched. (Without the local-verification
proviso, re-initialization re-adds a done key whose file fails verification to
`pending` and it is dispatched again — see the counterexample.) -/
theorem C1_dispatchAmended (valid : Job → Bool) (jobs : List Job) (st : Status)
    (hdisj : ∀ k, k ∈ st.done → k ∉ st.pending)
    (hv : ∀ j, j ∈ jobs → jobKey j ∈ st.done → valid j = true) :
    (∀ j, j ∈ dispatched jobs (initStatusIfEmpty valid jobs st) →
        jobKey j ∈ (initStatusIfEmpty valid jobs st).pending)
  ∧ (∀ j, j ∈ dispatched jobs (initStatusIfEmpty valid jobs st) →
        jobKey j ∉ st.done) := by
  constructor
  · intro j hj
    exact ((dispatched_mem jobs _ j).mp hj).2
  · intro j hj hdone
    have hp := ((dispatched_mem jobs _ j).mp hj).2
    by_cases h0 : st.pending = []
    · rw [initStatusIfEmpty, if_pos h0] at hp
      rcases classifyJobs_pending_src valid jobs _ (jobKey j) hp with h | ⟨j', hj', hkey, hfalse⟩
      · exact absurd h (List.not_mem_nil _)
      · have htrue := hv j' hj' (by rw [hkey]; exact hdone)
        rw [htrue] at hfalse
        cases hfalse
    · rw [initStatusIfEmpty, if_neg h0] at hp
      exact hdisj _ hdone hp

/-- Witness for C1_dispatchAmended at a concrete record whose pending list is
non-empty: the dispatched job ("a", "b") has a key outside `done`. -/
theorem C1_dispatchAmended_witness :
    jobKey (Job.mk "a" "b") ∉ (Status.mk ["a/b"] ["it/f"]).done :=
  (C1_dispatchAmended (fun _ => true) [Job.mk "a" "b", Job.mk "it" "f"]
      (Status.mk ["a/b"] ["it/f"])
      (by
        intro k hk
        fin_cases hk
        decide)
      (by intro j hj hk; rfl)).2
    (Job.mk "a" "b") (by decide)

/-- Claim C2: recording a success appends the key to `done` and removes it
from `pending` (moving it when the loaded pending list has no duplicates);
recording a failure leaves the status record untouched and appends the key to
the run's failure list, so a failed key is never silently dropped. -/
theorem C2_recordOutcome (st : Status) (failures : List String) (key : String)
    (hnd : st.pending.Nodup) :
    key ∈ (recordOutcome st failures key true).1.done
  ∧ key ∉ (recordOutcome st failures key true).1.pending
  ∧ (recordOutcome st failures key true).2 = failures
  ∧ (recordOutcome st failures key false).1 = st
  ∧ (recordOutcome st failures key false).2 = failures ++ [key]
  ∧ key ∈ (recordOutcome st failures key false).2 := by
  refine ⟨?_, ?_, rfl, rfl, rfl, ?_⟩
  · simp [recordOutcome]
  · simp only [recordOutcome, if_pos]
    exact fun h => ((List.Nodup.mem_erase_iff hnd).mp h).1 rfl
  · simp [recordOutcome]

/-- Witness for C2_recordOutcome at a concrete record. -/
theorem C2_recordOutcome_witness :
    "k" ∈ (recordOutcome (Status.mk ["k"] []) [] "k" true).1.done :=
  (C2_recordOutcome (Status.mk ["k"] []) [] "k" (by decide)).1

/-- Claim C4: initialization runs only when the loaded `pending` list is
empty — a non-empty `pending` leaves the record exactly as loaded; when it is
empty, every job is classified by local verification into `done` (verifies)
or `pending` (does not), and the previously recorded `done` keys are kept. -/
theorem C4_initFrame (valid : Job → Bool) (jobs : List Job) (st : Status) :
    (st.pending ≠ [] → initStatusIfEmpty valid jobs st = st)
  ∧ (st.pending = [] →
      (∀ j, j ∈ jobs →
          (valid j = true → jobKey j ∈ (initStatusIfEmpty valid jobs st).done)
        ∧ (valid j = false → jobKey j ∈ (initStatusIfEmpty valid jobs st).pending))
      ∧ st.done ⊆ (initStatusIfEmpty valid jobs st).done) := by
  constructor
  · intro h
    rw [initStatusIfEmpty, if_neg h]
  · intro h
    rw [initStatusIfEmpty, if_pos h]
    exact ⟨fun j hj => ⟨fun hvt => classifyJobs_done_mem valid jobs _ j hj hvt,
                        fun hvf => classifyJobs_pending_mem valid jobs _ j hj hvf⟩,
           classifyJobs_done_sub valid jobs (Status.mk [] st.done)⟩

/-- Witness for C4_initFrame: a record with non-empty pending is returned
unchanged, and with empty pending a verifying job's key lands in `done`. -/
theorem C4_initFrame_witness :
    initStatusIfEmpty (fun _ => true) [Job.mk "a" "b"] (Status.mk ["x"] [])
        = Status.mk ["x"] []
  ∧ jobKey (Job.mk "a" "b")
      ∈ (initStatusIfEmpty (fun _ => true) [Job.mk "a" "b"] (Status.mk [] [])).done :=
  ⟨(C4_initFrame (fun _ => true) [Job.mk "a" "b"] (Status.mk ["x"] [])).1 (by decide),
   (((C4_initFrame (fun _ => true) [Job.mk "a" "b"] (Status.mk [] [])).2 rfl).1
      (Job.mk "a" "b") (by decide)).1 rfl⟩

/-- Claim C6: the aggregate byte counter is monotone; a path's first
observation contributes zero; an unchanged-or-smaller size changes nothing;
a growth adds exactly the positive delta; and re-applying the same
observation is a no-op, so no bytes are ever double-counted. -/
theorem C6_aggregateBytes (st : ProgressState) (p : String) (sz : Nat) :
    st.bytesTotal ≤ (updateAggregateBytes st p sz).bytesTotal
  ∧ (st.lastSizes p = none → (updateAggregateBytes st p sz).bytesTotal = st.bytesTotal)
  ∧ (∀ prev, st.lastSizes p = some prev → sz ≤ prev → updateAggregateBytes st p sz = st)
  ∧ (∀ prev, st.lastSizes p = some prev → prev < sz →
      (updateAggregateBytes st p sz).bytesTotal = st.bytesTotal + (sz - prev))
  ∧ updateAggregateBytes (updateAggregateBytes st p sz) p sz
      = updateAggregateBytes st p sz := by
  refine ⟨?_, ?_, ?_, ?_, ?_⟩
  · rcases h : st.lastSizes p with _ | prev
    · simp [updateAggregateBytes, h]
    · by_cases hlt : prev < sz
      · simp [updateAggregateBytes, h, hlt]
      · simp [updateAggregateBytes, h, hlt]
  · intro h
    simp [updateAggregateBytes, h]
  · intro prev h hle
    rw [updateAggregateBytes, h]
    simp [Nat.not_lt.mpr hle]
  · intro prev h hlt
    rw [updateAggregateBytes, h]
    simp [hlt]
  · rcases h : st.lastSizes p with _ | prev
    · have h1 : updateAggregateBytes st p sz
          = { st with lastSizes := fun q => if q = p then some sz else st.lastSizes q } := by
        rw [updateAggregateBytes, h]
      rw [h1, updateAggregateBytes]
      simp
    · by_cases hlt : prev < sz
      · have h1 : updateAggregateBytes st p sz
            = { bytesTotal := st.bytesTotal + (sz - prev),
                lastSizes := fun q => if q = p then some sz else st.lastSizes q } := by
          rw [updateAggregateBytes, h]
          simp [hlt]
        rw [h1, updateAggregateBytes]
        simp
      · have h1 : updateAggregateBytes st p sz = st := by
          rw [updateAggregateBytes, h]
          simp [hlt]
        rw [h1, h1]

/-- Witness for C6_aggregateBytes: a first observation leaves the counter at
its previous value. -/
theorem C6_aggregateBytes_witness :
    (updateAggregateBytes (ProgressState.mk 0 (fun _ => none)) "p" 5).bytesTotal
      = (ProgressState.mk 0 (fun _ => none)).bytesTotal :=
  (C6_aggregateBytes (ProgressState.mk 0 (fun _ => none)) "p" 5).2.1 rfl

/-- Claim C7: with locking enabled, an existing lock file aborts the run with
exit code 3 (before any download); otherwise the fresh lock record (carrying
the newly drawn uuid token) is written and held; and the exit hook deletes
the lock file exactly when its stored token equals the one this process
wrote — a foreign or unreadable lock is never deleted. -/
theorem C7_lock (noLock lockFileExists : Bool) (info : LockInfo)
    (current : Option LockInfo) (myUuid : String)
    (hnl : noLock = false) :
    (lockFileExists = true → acquireLock noLock lockFileExists info = .error 3)
  ∧ (lockFileExists = false → acquireLock noLock lockFileExists info = .ok (some info))
  ∧ (unlockShouldDelete current myUuid = true →
      ∃ cur, current = some cur ∧ cur.uuid = myUuid)
  ∧ (∀ cur, current = some cur → cur.uuid ≠ myUuid →
      unlockShouldDelete current myUuid = false)
  ∧ (current = none → unlockShouldDelete current myUuid = false) := by
  refine ⟨?_, ?_, ?_, ?_, ?_⟩
  · intro h
    simp [acquireLock, hnl, h]
  · intro h
    simp [acquireLock, hnl, h]
  · intro h
    cases current with
    | none => simp [unlockShouldDelete] at h
    | some cur =>
        refine ⟨cur, rfl, ?_⟩
        simpa [unlockShouldDelete] using h
  · intro cur hc hne
    subst hc
    simp [unlockShouldDelete, hne]
  · intro h
    subst h
    rfl

/-- Witness for C7_lock: a concrete contended acquisition returns exit
code 3. -/
theorem C7_lock_witness :
    acquireLock false true (LockInfo.mk 1 "host" 0 "id" "u") = .error 3 :=
  (C7_lock false true (LockInfo.mk 1 "host" 0 "id" "u") none "u" rfl).1 rfl

/-- Claim C3: when shutdown is not requested and the local file verifies at
either candidate path (primary destdir/filename or nested
destdir/identifier/filename), fetcher.py's worker returns success in its
pre-network phase, never reaching the external download invocation; under
the matching conditions (valid inputs, containment, a verifying local copy)
parallel_ia_resume.py's worker likewise ends in one of its two
success-without-download outcomes. -/
theorem C3_localSkip (env : FetchEnv) (identifier filename destdir : String)
    (checksum : Bool) (unpackedRoot : Option String)
    (hsd : env.shutdown = false)
    (hver : verify_local_file env identifier filename
              (destdir ++ "/" ++ filename) checksum = true
          ∨ verify_local_file env identifier filename
              (destdir ++ "/" ++ identifier ++ "/" ++ filename) checksum = true)
    (hid : validIdentifier identifier = true)
    (hfn : isSafeFilename filename = true)
    (hwin : env.within destdir (destdir ++ "/" ++ filename) = true)
    (hrver : rverify env identifier filename (destdir ++ "/" ++ filename) = true) :
    fetcherWorkerPre env identifier filename destdir checksum = .skipLocal
  ∧ (resumeWorkerPre env identifier filename destdir unpackedRoot = .skipFolder
   ∨ resumeWorkerPre env identifier filename destdir unpackedRoot = .skipLocal) := by
  constructor
  · unfold fetcherWorkerPre
    rw [hsd]
    simp only [Bool.false_eq_true, if_false]
    rcases hver with hv | hv
    · rw [verify_local_file_exists env _ _ _ _ hv, hv]
      simp
    · split
      · rfl
      · rw [verify_local_file_exists env _ _ _ _ hv, hv]
        simp
  · unfold resumeWorkerPre
    rw [hid, hfn, hsd]
    simp only [Bool.not_true, Bool.false_eq_true, if_false]
    split
    · left
      rfl
    · right
      rw [hwin, rverify_exists env _ _ _ hrver, hrver]
      simp

/-- A concrete environment for the C3 witness: shutdown clear, every path
present with size 1, the verify collaborator succeeding, no unpacked
folders, containment holding. -/
def c3Env : FetchEnv :=
  FetchEnv.mk false (fun _ => true) (fun _ => 1) (fun _ _ => true)
    (fun _ => none) (fun _ _ => true)

/-- Witness for C3_localSkip at a concrete verifying job. -/
theorem C3_localSkip_witness :
    fetcherWorkerPre c3Env "id" "f" "d" false = WorkerStep.skipLocal :=
  (C3_localSkip c3Env "id" "f" "d" false none rfl (Or.inl (by decide))
    (by decide) (by decide) rfl (by decide)).1

/-- Claim C5: a trigger increments the backoff level by exactly one; the
resume timestamp becomes the max of its current value and now plus the
jittered delay at the new level (so an existing cooldown never shrinks); the
capped pre-jitter delay min(base * multiplier^level, max) is monotonically
non-decreasing in the level (hence across consecutive triggers with no
intervening relax); the level stays non-negative under both trigger and
relax; and with base=2s, multiplier=2, max=60s the first trigger's delay
term is 4s, the second consecutive trigger's is 8s, and the term caps at 60s
from level 5 on (where the exponential first exceeds it). -/
theorem C5_backoffTrigger (cfg : BackoffCfg) (st : BackoffState) (now j : ℚ)
    (hen : cfg.enabled = true) (hlvl : 0 ≤ st.level)
    (hbase : 0 ≤ cfg.base) (hmult : 1 ≤ cfg.multiplier) :
    (trigger cfg st now j).level = st.level + 1
  ∧ (trigger cfg st now j).untilTs
      = max st.untilTs (now + jitteredDelay cfg (st.level + 1).toNat j)
  ∧ st.untilTs ≤ (trigger cfg st now j).untilTs
  ∧ (∀ n : ℕ, preDelay cfg n ≤ preDelay cfg (n + 1))
  ∧ 0 ≤ (trigger cfg st now j).level
  ∧ 0 ≤ (relax cfg st).level
  ∧ (cfg.base = 2 ∧ cfg.multiplier = 2 ∧ cfg.maxDelay = 60 →
      preDelay cfg 1 = 4 ∧ preDelay cfg 2 = 8 ∧ ∀ n : ℕ, 5 ≤ n → preDelay cfg n = 60) := by
  have hmax0 : max 0 st.level = st.level := max_eq_right hlvl
  have hlevel : (trigger cfg st now j).level = st.level + 1 := by
    simp [trigger, hen, hmax0]
  refine ⟨hlevel, ?_, ?_, ?_, ?_, ?_, ?_⟩
  · simp [trigger, hen, hmax0]
  · simp only [trigger, hen, if_pos]
    exact le_max_left _ _
  · intro n
    unfold preDelay
    refine min_le_min ?_ le_rfl
    exact mul_le_mul_of_nonneg_left (pow_le_pow_right₀ hmult (Nat.le_succ n)) hbase
  · rw [hlevel]
    omega
  · unfold relax
    rw [hen]
    simp only [if_pos]
    split
    · rename_i hpos
      show (0:ℤ) ≤ st.level - 1
      omega
    · exact hlvl
  · rintro ⟨hb, hm, hx⟩
    refine ⟨?_, ?_, ?_⟩
    · unfold preDelay
      rw [hb, hm, hx, min_eq_left (by norm_num)]
      norm_num
    · unfold preDelay
      rw [hb, hm, hx, min_eq_left (by norm_num)]
      norm_num
    · intro n hn
      unfold preDelay
      rw [hb, hm, hx]
      have h32 : (32:ℚ) ≤ 2 ^ n := by
        calc (32:ℚ) = 2 ^ 5 := by norm_num
        _ ≤ 2 ^ n := pow_le_pow_right₀ (by norm_num) hn
      exact min_eq_right (by linarith)

/-- Witness for C5_backoffTrigger: a concrete first trigger from level 0
moves the level to 1. -/
theorem C5_backoffTrigger_witness :
    (trigger (BackoffCfg.mk true 2 60 2 (1/4)) (BackoffState.mk 0 0) 100 0).level = 0 + 1 :=
  (C5_backoffTrigger (BackoffCfg.mk true 2 60 2 (1/4)) (BackoffState.mk 0 0) 100 0
    rfl le_rfl (by norm_num) (by norm_num)).1

/-- Claim C8, counterexample. The claim states that the download worker
validates identifier and filename and rejects invalid jobs before any
external call; fetcher.py's `download_single_file` performs no such
validation: with the traversal filename "../escape" (rejected by the
repository's own `_is_safe_filename`), no shutdown and no local copy, the
fetcher worker proceeds all the way to the external download invocation. -/
theorem C8_counterexample :
    isSafeFilename "../escape" = false ∧
    fetcherWorkerPre
      (FetchEnv.mk false (fun _ => false) (fun _ => 0) (fun _ _ => false)
        (fun _ => none) (fun _ _ => true))
      "id" "../escape" "/data/id" false = WorkerStep.dispatch := by
  constructor
  · decide
  · decide

/-- Claim C8 (amended): parallel_ia_resume.py's download worker validates
the identifier (bounded [A-Za-z0-9._-] grammar) and the filename (non-empty,
no NUL/CR/LF, relative, normalization does not escape) and stops on an
invalid job before any external call — an invalid identifier raises
SystemExit and an unsafe filename returns the job as failed, in both cases
with no network attempt; fetcher.py's download worker performs no such
validation (see the counterexample). -/
theorem C8_resumeValidates (env : FetchEnv) (identifier filename destdir : String)
    (unpackedRoot : Option String)
    (h : validIdentifier identifier = false ∨ isSafeFilename filename = false) :
    resumeWorkerPre env identifier filename destdir unpackedRoot = .validationExit
  ∨ resumeWorkerPre env identifier filename destdir unpackedRoot = .validationFail := by
  rcases h with h | h
  · left
    simp [resumeWorkerPre, h]
  · by_cases hid : validIdentifier identifier = true
    · right
      simp [resumeWorkerPre, hid, h]
    · left
      rw [Bool.not_eq_true] at hid
      simp [resumeWorkerPre, hid]

/-- Witness for C8_resumeValidates: a traversal filename is stopped before
any external call. -/
theorem C8_resumeValidates_witness :
    resumeWorkerPre c3Env "ok" "../x" "d" none = RStep.validationExit
  ∨ resumeWorkerPre c3Env "ok" "../x" "d" none = RStep.validationFail :=
  C8_resumeValidates c3Env "ok" "../x" "d" none (Or.inr (by decide))

/-- Claim C9: in resumefolders discovery over zips, fetcher.py (permissive)
skips a file exactly when dest/stem exists as a directory and schedules it
otherwise, while parallel_ia_resume.py (strict) leaves a zip out of the
download list exactly when its unpacked folder exists as a directory and
recursively contains at least one non-empty regular file. -/
theorem C9_resumefolders (env : FetchEnv) (dest root : String)
    (files zips : List String) (fn z : String) (hz : z ∈ zips) :
    (fn ∈ resumefoldersWillSkip env dest files ↔
      fn ∈ files ∧ ∃ es, env.node (dest ++ "/" ++ pyStem fn) = some (FSNode.dir es))
  ∧ (fn ∈ resumefoldersJobList env dest files ↔
      fn ∈ files ∧ ¬ ∃ es, env.node (dest ++ "/" ++ pyStem fn) = some (FSNode.dir es))
  ∧ (z ∉ discover_missing_folder_zips env root zips ↔
      ∃ es, env.node (root ++ "/" ++ stripZipExt z) = some (FSNode.dir es)
        ∧ EntriesContainPosFile es) := by
  have hiff := resumefoldersSkip_iff env dest fn
  refine ⟨?_, ?_, ?_⟩
  · unfold resumefoldersWillSkip
    rw [List.mem_filter, hiff]
  · unfold resumefoldersJobList
    rw [List.mem_filter]
    constructor
    · rintro ⟨hm, hb⟩
      refine ⟨hm, fun hex => ?_⟩
      rw [hiff.mpr hex] at hb
      simp at hb
    · rintro ⟨hm, hnex⟩
      refine ⟨hm, ?_⟩
      rcases Bool.eq_false_or_eq_true (resumefoldersSkip env dest fn) with hb | hb
      · exact absurd (hiff.mp hb) hnex
      · simp [hb]
  · unfold discover_missing_folder_zips
    rw [← dirIsEmpty_eq_false_iff]
    constructor
    · intro hnot
      rcases Bool.eq_false_or_eq_true
          (dirIsEmpty env (root ++ "/" ++ stripZipExt z)) with hb | hb
      · exact absurd (List.mem_filter.mpr ⟨hz, hb⟩) hnot
      · exact hb
    · intro hfalse hmem
      have hb := (List.mem_filter.mp hmem).2
      rw [hfalse] at hb
      cases hb

/-- A concrete environment for the C9 witness: the unpacked folder
"root/a" exists and contains one non-empty file. -/
def c9Env : FetchEnv :=
  FetchEnv.mk false (fun _ => false) (fun _ => 0) (fun _ _ => false)
    (fun p => if p = "root/a" then
        some (FSNode.dir (FSEntries.cons "x" (FSNode.file 1) FSEntries.nil))
      else none)
    (fun _ _ => true)

/-- Witness for C9_resumefolders: the strict variant's characterization at a
concrete filesystem. -/
theorem C9_resumefolders_witness :
    "a.zip" ∉ discover_missing_folder_zips c9Env "root" ["a.zip"] :=
  (C9_resumefolders c9Env "dest" "root" [] ["a.zip"] "f" "a.zip" (by decide)).2.2.mpr
    ⟨FSEntries.cons "x" (FSNode.file 1) FSEntries.nil, rfl,
     EntriesContainPosFile.head _ _ _ (ContainsPosFile.file 1 (by decide))⟩

/-- Claim C10: the jittered backoff delay always lies in
[0, maxDelay * (1 + jitter)]: the cap is applied before the symmetric jitter
(draw j in [-1, 1]) is added, so with a positive jitter fraction the actual
delay can exceed the configured maximum (concretely, base=2, multiplier=2,
max=60, jitter=1/4 at level 10 with j=1 gives 75s > 60s), and the delay is
clamped at zero from below. -/
theorem C10_jitterBounds (cfg : BackoffCfg) (n : ℕ) (j : ℚ)
    (hbase : 0 ≤ cfg.base) (hmult : 0 ≤ cfg.multiplier) (hmax : 0 ≤ cfg.maxDelay)
    (hjl : -1 ≤ j) (hju : j ≤ 1) (hjf : 0 ≤ cfg.jitter) :
    0 ≤ jitteredDelay cfg n j
  ∧ jitteredDelay cfg n j ≤ cfg.maxDelay * (1 + cfg.jitter)
  ∧ (cfg = BackoffCfg.mk true 2 60 2 (1/4) →
      cfg.maxDelay < jitteredDelay cfg 10 1) := by
  have hd0 : 0 ≤ preDelay cfg n :=
    le_min (mul_nonneg hbase (pow_nonneg hmult n)) hmax
  have hdM : preDelay cfg n ≤ cfg.maxDelay := min_le_right _ _
  refine ⟨le_max_left _ _, ?_, ?_⟩
  · unfold jitteredDelay
    refine max_le (mul_nonneg hmax (by linarith)) ?_
    nlinarith [mul_nonneg hjf hd0,
      mul_nonneg (sub_nonneg.mpr hju) (mul_nonneg hjf hd0),
      mul_nonneg (sub_nonneg.mpr hdM) (by linarith : (0:ℚ) ≤ 1 + cfg.jitter)]
  · intro hcfg
    subst hcfg
    have h1 : preDelay (BackoffCfg.mk true 2 60 2 (1/4)) 10 = 60 :=
      min_eq_right (by norm_num)
    unfold jitteredDelay
    rw [h1]
    rw [show (60:ℚ) + 1 * (1/4 * 60) = 75 by norm_num]
    rw [max_eq_right (by norm_num : (0:ℚ) ≤ 75)]
    norm_num

/-- Witness for C10_jitterBounds: the concrete over-the-cap delay of 75s
against a 60s configured maximum. -/
theorem C10_jitterBounds_witness :
    (BackoffCfg.mk true 2 60 2 (1/4)).maxDelay
      < jitteredDelay (BackoffCfg.mk true 2 60 2 (1/4)) 10 1 :=
  (C10_jitterBounds (BackoffCfg.mk true 2 60 2 (1/4)) 10 1
    (by norm_num) (by norm_num) (by norm_num) (by norm_num) le_rfl (by norm_num)).2.2 rfl

end IAMirror
